import Mathlib

/-!
Verification of the SGDI access-control and approval-workflow subsystem.

The definitions below are a shallow embedding of the Python services
`app/services/permission_service.py` and `app/services/workflow_service.py`
together with the models they read (`app/models/permission.py`,
`app/models/workflow.py`) and the repository queries they issue
(`app/repositories/workflow_repository.py`).  Database tables are lists of
rows, timestamps are naturals, and each service method becomes a pure
function from the relevant table state to an `Except` result paired with the
successor state.
-/

namespace SGDI

/-- Document row, restricted to the fields the permission and workflow
services actually read: the primary key `id` and the owner `usuario_id`. -/
structure Documento where
  id : Nat
  usuario_id : Nat
deriving DecidableEq

/-- User row, restricted to the fields read by `grant_permission`:
the primary key and the `ativo` flag. -/
structure User where
  id : Nat
  ativo : Bool
deriving DecidableEq

/-- Row of the `permissoes` table (`app/models/permission.py`). -/
structure Permissao where
  documento_id : Nat
  usuario_id : Nat
  tipo_permissao : String
  data_concessao : Nat
  concedido_por : Nat
  data_expiracao : Option Nat
deriving DecidableEq

/-- PermissionService.VALID_PERMISSION_TYPES. -/
def VALID_PERMISSION_TYPES : List String :=
  ["visualizar", "editar", "excluir", "compartilhar"]

/-- Permissao.is_expired: a row with an expiration date is expired when that
date is strictly before the current time; a row without one never expires. -/
def is_expired (p : Permissao) (now : Nat) : Bool :=
  match p.data_expiracao with
  | some e => decide (e < now)
  | none => false

/-- Filter used by every `query(Permissao).filter_by(documento_id=...,
usuario_id=..., tipo_permissao=...)` in the service. -/
def permMatches (doc uid : Nat) (k : String) (p : Permissao) : Bool :=
  p.documento_id == doc && p.usuario_id == uid && p.tipo_permissao == k

/-- Result of `.first()` on the permission query for one key. -/
def findPerm (perms : List Permissao) (doc uid : Nat) (k : String) : Option Permissao :=
  perms.find? (permMatches doc uid k)

/-- Condition `permission and not permission.is_expired()` applied to the
first row found for the key, as in `check_permission`. -/
def hasValidGrant (perms : List Permissao) (doc uid : Nat) (k : String) (now : Nat) : Bool :=
  match findPerm perms doc uid k with
  | some p => !(is_expired p now)
  | none => false

/-- Error taxonomy of PermissionService. -/
inductive PermError where
  | invalidPermissionType
  | permissionDenied
  | serviceError (msg : String)
deriving DecidableEq

/-- PermissionService.check_permission. -/
def check_permission (perms : List Permissao) (documento : Documento) (user_id : Nat)
    (permission_type : String) (now : Nat) : Except PermError Bool :=
  if !(VALID_PERMISSION_TYPES.contains permission_type) then
    .error .invalidPermissionType
  else if documento.usuario_id == user_id then
    .ok true
  else if hasValidGrant perms documento.id user_id permission_type now then
    .ok true
  else if permission_type == "visualizar" &&
      (hasValidGrant perms documento.id user_id "editar" now ||
       hasValidGrant perms documento.id user_id "excluir" now ||
       hasValidGrant perms documento.id user_id "compartilhar" now) then
    .ok true
  else
    .ok false

/-- Boolean form of a `check_permission` call whose kind is a known-valid
literal, as used inside grant/revoke authorization tests. -/
def checkTrue (perms : List Permissao) (documento : Documento) (user_id : Nat)
    (permission_type : String) (now : Nat) : Bool :=
  match check_permission perms documento user_id permission_type now with
  | .ok b => b
  | .error _ => false

/-- Mutation applied to an existing row by a re-grant: the granter, the
grant date and the expiration are overwritten, the key fields are kept. -/
def updatedGrant (p : Permissao) (granted_by : Nat) (expiration_date : Option Nat)
    (now : Nat) : Permissao :=
  { p with concedido_por := granted_by, data_concessao := now,
           data_expiracao := expiration_date }

/-- In-place update of the first row matching the key, mirroring the ORM
mutation of the object returned by `.first()`. -/
def replaceFirstPerm (doc uid : Nat) (k : String) (q : Permissao) :
    List Permissao → List Permissao
  | [] => []
  | p :: rest =>
    if permMatches doc uid k p then q :: rest
    else p :: replaceFirstPerm doc uid k q rest

/-- Deletion of the first row matching the key, mirroring
`db.session.delete` of the object returned by `.first()`. -/
def removeFirstPerm (doc uid : Nat) (k : String) : List Permissao → List Permissao
  | [] => []
  | p :: rest =>
    if permMatches doc uid k p then rest
    else p :: removeFirstPerm doc uid k rest

/-- PermissionService.grant_permission. -/
def grant_permission (perms : List Permissao) (users : List User) (documento : Documento)
    (target_user_id : Nat) (permission_type : String) (granted_by_user_id : Nat)
    (expiration_date : Option Nat) (now : Nat) :
    Except PermError (List Permissao × Permissao) :=
  if !(VALID_PERMISSION_TYPES.contains permission_type) then
    .error .invalidPermissionType
  else if documento.usuario_id != granted_by_user_id &&
      !(checkTrue perms documento granted_by_user_id "compartilhar" now) then
    .error .permissionDenied
  else
    match users.find? (fun u => u.id == target_user_id) with
    | none => .error (.serviceError "user not found")
    | some target_user =>
      if !target_user.ativo then
        .error (.serviceError "inactive user")
      else
        match findPerm perms documento.id target_user_id permission_type with
        | some existing =>
          let q := updatedGrant existing granted_by_user_id expiration_date now
          .ok (replaceFirstPerm documento.id target_user_id permission_type q perms, q)
        | none =>
          let p : Permissao :=
            { documento_id := documento.id, usuario_id := target_user_id,
              tipo_permissao := permission_type, data_concessao := now,
              concedido_por := granted_by_user_id, data_expiracao := expiration_date }
          .ok (perms ++ [p], p)

/-- PermissionService.revoke_permission. -/
def revoke_permission (perms : List Permissao) (documento : Documento)
    (target_user_id : Nat) (permission_type : String) (revoked_by_user_id : Nat)
    (now : Nat) : Except PermError (List Permissao × Bool) :=
  if documento.usuario_id != revoked_by_user_id &&
      !(checkTrue perms documento revoked_by_user_id "compartilhar" now) then
    .error .permissionDenied
  else
    match findPerm perms documento.id target_user_id permission_type with
    | some _ => .ok (removeFirstPerm documento.id target_user_id permission_type perms, true)
    | none => .ok (perms, false)

/-- PermissionService.revoke_all_permissions: bulk delete of every kind the
target holds on the document, returning the number of deleted rows. -/
def revoke_all_permissions (perms : List Permissao) (documento : Documento)
    (target_user_id : Nat) (revoked_by_user_id : Nat) (now : Nat) :
    Except PermError (List Permissao × Nat) :=
  if documento.usuario_id != revoked_by_user_id &&
      !(checkTrue perms documento revoked_by_user_id "compartilhar" now) then
    .error .permissionDenied
  else
    .ok (perms.filter
          (fun p => !(p.documento_id == documento.id && p.usuario_id == target_user_id)),
        (perms.filter
          (fun p => p.documento_id == documento.id && p.usuario_id == target_user_id)).length)

/-- Predicate of the bulk delete in `cleanup_expired_permissions`:
`data_expiracao.isnot(None)` together with `data_expiracao < now`. -/
def sweepPred (p : Permissao) (now : Nat) : Bool :=
  match p.data_expiracao with
  | some e => decide (e < now)
  | none => false

/-- PermissionService.cleanup_expired_permissions: deletes the rows matched
by `sweepPred` and returns their number. -/
def cleanup_expired_permissions (perms : List Permissao) (now : Nat) :
    List Permissao × Nat :=
  (perms.filter (fun p => !(sweepPred p now)),
   (perms.filter (fun p => sweepPred p now)).length)

/-- Loop body of PermissionService.share_document: one `grant_permission`
per requested kind, stopping with the error of the first failing grant.
Earlier grants stay committed, so the permission table reached at the
failure point is returned in either case. -/
def share_go (users : List User) (documento : Documento) (target shared_by : Nat)
    (exp : Option Nat) (now : Nat) :
    List Permissao → List Permissao → List String →
    List Permissao × Except PermError (List Permissao)
  | perms, acc, [] => (perms, .ok acc.reverse)
  | perms, acc, k :: ks =>
    match grant_permission perms users documento target k shared_by exp now with
    | .ok (perms', p) => share_go users documento target shared_by exp now perms' (p :: acc) ks
    | .error e => (perms, .error e)

/-- PermissionService.share_document.  The expiration date is `now` shifted
by the requested number of days (time units are abstract). -/
def share_document (perms : List Permissao) (users : List User) (documento : Documento)
    (target_user_id : Nat) (permission_types : List String) (shared_by_user_id : Nat)
    (expiration_days : Option Nat) (now : Nat) :
    List Permissao × Except PermError (List Permissao) :=
  share_go users documento target_user_id shared_by_user_id
    (expiration_days.map (fun d => now + d)) now perms [] permission_types

/-- Stage of a workflow configuration, as stored in the `stages` entry of the
JSON column `configuracao_json` (`app/models/workflow.py`). -/
structure Stage where
  name : String
  approvers : List Nat
  require_all : Bool
deriving DecidableEq

/-- Row of the `workflows` table, restricted to the fields the engine reads. -/
structure Workflow where
  id : Nat
  nome : String
  ativo : Bool
  stages : List Stage
deriving DecidableEq

/-- Row of the `aprovacao_documentos` table. -/
structure AprovacaoDocumento where
  id : Nat
  documento_id : Nat
  workflow_id : Nat
  submetido_por : Nat
  estagio_atual : Nat
  status : String
  data_conclusao : Option Nat
deriving DecidableEq

/-- Row of the `historico_aprovacoes` table. -/
structure HistoricoAprovacao where
  aprovacao_id : Nat
  estagio : Nat
  aprovador_id : Nat
  acao : String
  comentario : String
  data_acao : Nat
deriving DecidableEq

/-- Database state read and written by WorkflowService: the workflow
templates, the set of existing document ids, the approval instances, the
append-only history and the next approval primary key. -/
structure WState where
  workflows : List Workflow
  documentos : List Nat
  aprovacoes : List AprovacaoDocumento
  historico : List HistoricoAprovacao
  next_id : Nat
deriving DecidableEq

/-- Error taxonomy of WorkflowService.  `serviceError` carries the message of
a generic WorkflowServiceError. -/
inductive WError where
  | workflowNotFound
  | approvalNotFound
  | unauthorizedApprover
  | serviceError (msg : String)
  | internalError
deriving DecidableEq

/-- WorkflowRepository.get_by_id. -/
def findWorkflow (s : WState) (wid : Nat) : Option Workflow :=
  s.workflows.find? (fun w => w.id == wid)

/-- AprovacaoDocumentoRepository.get_by_id. -/
def findAprovacao (s : WState) (aid : Nat) : Option AprovacaoDocumento :=
  s.aprovacoes.find? (fun a => a.id == aid)

/-- AprovacaoDocumentoRepository.get_pending_approvals. -/
def get_pending_approvals (s : WState) (documento_id : Nat) : List AprovacaoDocumento :=
  s.aprovacoes.filter (fun a => a.documento_id == documento_id && a.status == "pendente")

/-- HistoricoAprovacaoRepository.get_by_approval.  Entries are appended in
timestamp order, so list order realizes the `order_by(data_acao)`. -/
def get_by_approval (hist : List HistoricoAprovacao) (aid : Nat) : List HistoricoAprovacao :=
  hist.filter (fun h => h.aprovacao_id == aid)

/-- WorkflowService._is_authorized_approver: membership of the user in the
approver list of the current (1-indexed) stage of the live definition. -/
def is_authorized_approver (w : Workflow) (a : AprovacaoDocumento) (user_id : Nat) : Bool :=
  match w.stages.get? (a.estagio_atual - 1) with
  | none => false
  | some st => st.approvers.contains user_id

/-- Distinct approvers with an `aprovado` history entry for this approval at
this stage — the set `approved_by` built by `_is_stage_complete`. -/
def approvedAt (hist : List HistoricoAprovacao) (aid stage : Nat) : List Nat :=
  (((get_by_approval hist aid).filter
      (fun h => h.estagio == stage && h.acao == "aprovado")).map
    (fun h => h.aprovador_id)).dedup

/-- WorkflowService._is_stage_complete, evaluated against the given history
table (which already contains the entry of the action being processed). -/
def is_stage_complete (w : Workflow) (a : AprovacaoDocumento)
    (hist : List HistoricoAprovacao) (acao : String) : Bool :=
  if acao == "rejeitado" then true
  else
    match w.stages.get? (a.estagio_atual - 1) with
    | none => true
    | some st =>
      if !st.require_all then true
      else decide ((approvedAt hist a.id a.estagio_atual).length ≥ st.approvers.length)

/-- ORM mutation of the approval row: every stored row carrying the mutated
object's primary key now reads back as the mutated object. -/
def updateAprovacao (l : List AprovacaoDocumento) (a : AprovacaoDocumento) :
    List AprovacaoDocumento :=
  l.map (fun x => if x.id == a.id then a else x)

/-- WorkflowService.submit_for_approval. -/
def submit_for_approval (s : WState) (documento_id workflow_id submetido_por : Nat) :
    Except WError (WState × AprovacaoDocumento) :=
  match findWorkflow s workflow_id with
  | none => .error .workflowNotFound
  | some w =>
    if !w.ativo then
      .error (.serviceError "workflow is not active")
    else if !(s.documentos.contains documento_id) then
      .error (.serviceError "document not found")
    else if !(get_pending_approvals s documento_id).isEmpty then
      .error (.serviceError "already has pending approval")
    else
      let a : AprovacaoDocumento :=
        { id := s.next_id, documento_id := documento_id, workflow_id := workflow_id,
          submetido_por := submetido_por, estagio_atual := 1, status := "pendente",
          data_conclusao := none }
      .ok ({ s with aprovacoes := s.aprovacoes ++ [a], next_id := s.next_id + 1 }, a)

/-- WorkflowService.approve_document.  The history entry is visible to the
stage-completion query (the ORM autoflushes the pending insert), hence the
completion test runs on `hist2`. -/
def approve_document (s : WState) (aprovacao_id aprovador_id : Nat)
    (comentario : String) (now : Nat) : Except WError (WState × AprovacaoDocumento) :=
  match findAprovacao s aprovacao_id with
  | none => .error .approvalNotFound
  | some aprovacao =>
    if aprovacao.status != "pendente" then
      .error (.serviceError "approval is not pending")
    else
      match findWorkflow s aprovacao.workflow_id with
      | none => .error .internalError
      | some workflow =>
        if !(is_authorized_approver workflow aprovacao aprovador_id) then
          .error .unauthorizedApprover
        else
          let entry : HistoricoAprovacao :=
            { aprovacao_id := aprovacao_id, estagio := aprovacao.estagio_atual,
              aprovador_id := aprovador_id, acao := "aprovado",
              comentario := comentario, data_acao := now }
          let hist2 := s.historico ++ [entry]
          if is_stage_complete workflow aprovacao hist2 "aprovado" then
            if aprovacao.estagio_atual < workflow.stages.length then
              let a2 := { aprovacao with estagio_atual := aprovacao.estagio_atual + 1 }
              .ok ({ s with historico := hist2,
                            aprovacoes := updateAprovacao s.aprovacoes a2 }, a2)
            else
              let a2 := { aprovacao with status := "aprovado", data_conclusao := some now }
              .ok ({ s with historico := hist2,
                            aprovacoes := updateAprovacao s.aprovacoes a2 }, a2)
          else
            .ok ({ s with historico := hist2 }, aprovacao)

/-- Python truthiness test `not comentario or not comentario.strip()`:
true exactly when the string is empty or consists of whitespace only. -/
def isBlank (s : String) : Bool :=
  s.toList.all (fun c => c == ' ' || c == '\t' || c == '\n' || c == '\r')

/-- WorkflowService.reject_document.  The comment is validated first; a
single rejection terminates the instance. -/
def reject_document (s : WState) (aprovacao_id aprovador_id : Nat)
    (comentario : String) (now : Nat) : Except WError (WState × AprovacaoDocumento) :=
  if isBlank comentario then
    .error (.serviceError "Rejection comment is mandatory")
  else
    match findAprovacao s aprovacao_id with
    | none => .error .approvalNotFound
    | some aprovacao =>
      if aprovacao.status != "pendente" then
        .error (.serviceError "approval is not pending")
      else
        match findWorkflow s aprovacao.workflow_id with
        | none => .error .internalError
        | some workflow =>
          if !(is_authorized_approver workflow aprovacao aprovador_id) then
            .error .unauthorizedApprover
          else
            let entry : HistoricoAprovacao :=
              { aprovacao_id := aprovacao_id, estagio := aprovacao.estagio_atual,
                aprovador_id := aprovador_id, acao := "rejeitado",
                comentario := comentario, data_acao := now }
            let a2 := { aprovacao with status := "rejeitado", data_conclusao := some now }
            .ok ({ s with historico := s.historico ++ [entry],
                          aprovacoes := updateAprovacao s.aprovacoes a2 }, a2)

/-- Mutating operations of the workflow engine, used to state invariants over
arbitrary call sequences. -/
inductive WOp where
  | submit (documento_id workflow_id submetido_por : Nat)
  | approve (aprovacao_id aprovador_id : Nat) (comentario : String) (now : Nat)
  | reject (aprovacao_id aprovador_id : Nat) (comentario : String) (now : Nat)

/-- Resulting database state of one engine call; a raised error rolls the
transaction back, leaving the state unchanged. -/
def applyWOp (s : WState) : WOp → WState
  | .submit d w u =>
    match submit_for_approval s d w u with
    | .ok (s', _) => s'
    | .error _ => s
  | .approve aid u c n =>
    match approve_document s aid u c n with
    | .ok (s', _) => s'
    | .error _ => s
  | .reject aid u c n =>
    match reject_document s aid u c n with
    | .ok (s', _) => s'
    | .error _ => s

/-! General list helpers shared by several developments below. -/

theorem find?_append_some {α : Type} (P : α → Bool) {l1 : List α} (l2 : List α) {a : α}
    (h : l1.find? P = some a) : (l1 ++ l2).find? P = some a := by
  induction l1 with
  | nil => simp at h
  | cons y ys ih =>
    cases hy : P y with
    | true =>
      rw [List.find?_cons_of_pos _ hy] at h
      rw [List.cons_append, List.find?_cons_of_pos _ hy, h]
    | false =>
      rw [List.find?_cons_of_neg _ (by simp [hy])] at h
      rw [List.cons_append, List.find?_cons_of_neg _ (by simp [hy])]
      exact ih h

theorem find?_decomp {α : Type} {P : α → Bool} {l : List α} {a : α}
    (h : l.find? P = some a) :
    ∃ l1 l2, l = l1 ++ a :: l2 ∧ ∀ x ∈ l1, P x = false := by
  induction l with
  | nil => simp at h
  | cons y ys ih =>
    cases hy : P y with
    | true =>
      rw [List.find?_cons_of_pos _ hy] at h
      obtain rfl : y = a := by injection h
      exact ⟨[], ys, rfl, by simp⟩
    | false =>
      rw [List.find?_cons_of_neg _ (by simp [hy])] at h
      obtain ⟨l1, l2, rfl, hl1⟩ := ih h
      refine ⟨y :: l1, l2, rfl, ?_⟩
      intro x hx
      rcases List.mem_cons.mp hx with rfl | hx'
      · exact hy
      · exact hl1 x hx'

theorem find?_of_decomp {α : Type} {P : α → Bool} {l1 : List α} (l2 : List α) {a : α}
    (hl1 : ∀ x ∈ l1, P x = false) (ha : P a = true) :
    (l1 ++ a :: l2).find? P = some a := by
  induction l1 with
  | nil => simpa using List.find?_cons_of_pos _ ha
  | cons y ys ih =>
    rw [List.cons_append, List.find?_cons_of_neg _ (by simp [hl1 y (by simp)])]
    exact ih (fun x hx => hl1 x (by simp [hx]))

/-! Claim C6: owner supremacy. -/

/-- C6: the document owner passes `check_permission` for every valid kind,
independently of the permission table (in particular with zero grant rows
for that user). -/
theorem owner_has_all_permissions (perms : List Permissao) (d : Documento) (u : Nat)
    (k : String) (now : Nat) (hk : k ∈ VALID_PERMISSION_TYPES) (ho : d.usuario_id = u) :
    check_permission perms d u k now = .ok true := by
  unfold check_permission
  rw [if_neg (by simpa using hk), if_pos (by simp [ho])]

/-- Witness for C6: the owner of document 1 passes an `editar` check with an
empty permission table. -/
theorem owner_has_all_permissions_witness :
    "editar" ∈ VALID_PERMISSION_TYPES ∧ (5 : Nat) = 5 ∧
      check_permission [] ⟨1, 5⟩ 5 "editar" 0 = .ok true :=
  ⟨by decide, rfl, owner_has_all_permissions [] ⟨1, 5⟩ 5 "editar" 0 (by decide) rfl⟩

/-! Claim C7: permission implication. -/

theorem check_view_ok (perms : List Permissao) (d : Documento) (u : Nat) (now : Nat)
    (h : d.usuario_id = u ∨ hasValidGrant perms d.id u "visualizar" now = true ∨
         hasValidGrant perms d.id u "editar" now = true ∨
         hasValidGrant perms d.id u "excluir" now = true ∨
         hasValidGrant perms d.id u "compartilhar" now = true) :
    check_permission perms d u "visualizar" now = .ok true := by
  unfold check_permission
  rw [if_neg (by decide)]
  by_cases h1 : d.usuario_id = u
  · rw [if_pos (by simp [h1])]
  · rw [if_neg (by simp [h1])]
    by_cases h2 : hasValidGrant perms d.id u "visualizar" now = true
    · rw [if_pos h2]
    · rw [if_neg h2]
      rcases h with ho | hv | he | hx | hs
      · exact absurd ho h1
      · exact absurd hv h2
      · rw [if_pos (by simp [he])]
      · rw [if_pos (by simp [hx])]
      · rw [if_pos (by simp [hs])]

theorem check_ok_true_inv (perms : List Permissao) (d : Documento) (u : Nat) (k : String)
    (now : Nat) (h : check_permission perms d u k now = .ok true) :
    d.usuario_id = u ∨ hasValidGrant perms d.id u k now = true ∨ k = "visualizar" := by
  unfold check_permission at h
  split_ifs at h with h0 h1 h2 h3
  · exact Or.inl (by simpa using h1)
  · exact Or.inr (Or.inl h2)
  · simp only [Bool.and_eq_true, beq_iff_eq] at h3
    exact Or.inr (Or.inr h3.1)
  · exact absurd h (by simp)

/-- C7: for every document and user, a successful `editar` check implies a
successful `visualizar` check, and likewise for `excluir` and
`compartilhar`. -/
theorem higher_kinds_imply_view (perms : List Permissao) (d : Documento) (u : Nat)
    (now : Nat) :
    (check_permission perms d u "editar" now = .ok true →
       check_permission perms d u "visualizar" now = .ok true) ∧
    (check_permission perms d u "excluir" now = .ok true →
       check_permission perms d u "visualizar" now = .ok true) ∧
    (check_permission perms d u "compartilhar" now = .ok true →
       check_permission perms d u "visualizar" now = .ok true) := by
  refine ⟨fun h => ?_, fun h => ?_, fun h => ?_⟩
  · rcases check_ok_true_inv perms d u "editar" now h with ho | hg | habs
    · exact check_view_ok perms d u now (Or.inl ho)
    · exact check_view_ok perms d u now (Or.inr (Or.inr (Or.inl hg)))
    · exact absurd habs (by decide)
  · rcases check_ok_true_inv perms d u "excluir" now h with ho | hg | habs
    · exact check_view_ok perms d u now (Or.inl ho)
    · exact check_view_ok perms d u now (Or.inr (Or.inr (Or.inr (Or.inl hg))))
    · exact absurd habs (by decide)
  · rcases check_ok_true_inv perms d u "compartilhar" now h with ho | hg | habs
    · exact check_view_ok perms d u now (Or.inl ho)
    · exact check_view_ok perms d u now (Or.inr (Or.inr (Or.inr (Or.inr hg))))
    · exact absurd habs (by decide)

/-- Witness for C7: a non-owner holding only an `editar` grant passes the
`visualizar` check. -/
theorem higher_kinds_imply_view_witness :
    check_permission [⟨1, 2, "editar", 0, 7, none⟩] ⟨1, 7⟩ 2 "editar" 0 = .ok true ∧
      check_permission [⟨1, 2, "editar", 0, 7, none⟩] ⟨1, 7⟩ 2 "visualizar" 0 = .ok true :=
  ⟨rfl, (higher_kinds_imply_view [⟨1, 2, "editar", 0, 7, none⟩] ⟨1, 7⟩ 2 0).1 rfl⟩

/-! Claim C3: expiration semantics.  `Permissao.is_expired` compares with a
strict inequality, so a grant whose expiration equals the current instant is
still honored; the claimed `expires-at <= now` boundary behavior fails. -/

/-- Counterexample to C3 as stated: a non-owner's grant with
`expires-at = now` is still honored by check, and the row is not expired. -/
theorem boundary_grant_still_honored :
    check_permission [⟨1, 2, "visualizar", 0, 7, some 100⟩] ⟨1, 7⟩ 2 "visualizar" 100 =
        .ok true ∧
      is_expired ⟨1, 2, "visualizar", 0, 7, some 100⟩ 100 = false :=
  ⟨rfl, rfl⟩

theorem hasValidGrant_eq_false (perms : List Permissao) (doc uid : Nat) (k : String)
    (now : Nat)
    (hexp : ∀ p ∈ perms, p.documento_id = doc → p.usuario_id = uid →
      is_expired p now = true) :
    hasValidGrant perms doc uid k now = false := by
  unfold hasValidGrant findPerm
  cases hf : perms.find? (permMatches doc uid k) with
  | none => rfl
  | some p =>
    have hmem := List.mem_of_find?_eq_some hf
    have hP := List.find?_some hf
    unfold permMatches at hP
    simp only [Bool.and_eq_true, beq_iff_eq] at hP
    simp [hexp p hmem hP.1.1 hP.1.2]

/-- C3 amended: a grant is treated as absent exactly when its expiration is
strictly before now.  If every grant row of a non-owner on the document is
strictly expired, check returns false for every valid kind; at the exact
boundary `expires-at = now` the grant is not yet expired (and hence still
honored, contrary to the original claim). -/
theorem strictly_expired_grants_not_honored (perms : List Permissao) (d : Documento)
    (u : Nat) (k : String) (now : Nat) (hk : k ∈ VALID_PERMISSION_TYPES)
    (ho : d.usuario_id ≠ u)
    (hexp : ∀ p ∈ perms, p.documento_id = d.id → p.usuario_id = u →
      is_expired p now = true) :
    check_permission perms d u k now = .ok false ∧
      ∀ p : Permissao, p.data_expiracao = some now → is_expired p now = false := by
  have hg : ∀ k', hasValidGrant perms d.id u k' now = false := fun k' =>
    hasValidGrant_eq_false perms d.id u k' now hexp
  constructor
  · unfold check_permission
    rw [if_neg (by simpa using hk), if_neg (by simp [ho]), if_neg (by simp [hg]),
      if_neg (by simp [hg])]
  · intro p hp
    unfold is_expired
    rw [hp]
    simp

/-- Witness for C3's amended statement: a strictly expired `visualizar`
grant is not honored, and a grant expiring exactly now is not expired. -/
theorem strictly_expired_grants_not_honored_witness :
    check_permission [⟨1, 2, "visualizar", 0, 7, some 50⟩] ⟨1, 7⟩ 2 "visualizar" 100 =
        .ok false ∧
      ∀ p : Permissao, p.data_expiracao = some 100 → is_expired p 100 = false :=
  strictly_expired_grants_not_honored [⟨1, 2, "visualizar", 0, 7, some 50⟩] ⟨1, 7⟩ 2
    "visualizar" 100 (by decide) (by decide) (by decide)

/-! Claim C10: the expiration sweep. -/

/-- C10: the sweep keeps exactly the rows whose expiration is null or not yet
strictly passed, keeps them unchanged and in order (a sublist of the table),
and returns the number of deleted rows. -/
theorem cleanup_removes_exactly_strictly_expired (perms : List Permissao) (now : Nat) :
    List.Sublist (cleanup_expired_permissions perms now).1 perms ∧
      (∀ p, p ∈ (cleanup_expired_permissions perms now).1 ↔
        p ∈ perms ∧ ∀ e, p.data_expiracao = some e → now ≤ e) ∧
      (cleanup_expired_permissions perms now).1.length +
          (cleanup_expired_permissions perms now).2 = perms.length := by
  unfold cleanup_expired_permissions
  refine ⟨List.filter_sublist perms, fun p => ?_, ?_⟩
  · rw [List.mem_filter]
    constructor
    · rintro ⟨hp, hcond⟩
      refine ⟨hp, fun e he => ?_⟩
      unfold sweepPred at hcond
      rw [he] at hcond
      simpa using hcond
    · rintro ⟨hp, hcond⟩
      refine ⟨hp, ?_⟩
      unfold sweepPred
      cases hde : p.data_expiracao with
      | none => rfl
      | some e => simpa using hcond e hde
  · have h := @List.length_eq_length_filter_add _ perms (fun q => sweepPred q now)
    simp only at h ⊢
    omega

/-! Claim C4: partial failure of share_document.  Grants committed before
the failing grant stay persisted, but the failing grant's error is raised to
the caller; the list of successful grants is not returned. -/

/-- Counterexample to C4 as stated: sharing kinds `[visualizar, bogus]`
persists the first grant but returns the second grant's error, not the list
of grants that succeeded. -/
theorem share_failure_returns_error_not_list :
    (share_document [] [⟨2, true⟩] ⟨1, 1⟩ 2 ["visualizar", "bogus"] 1 none 5).1 =
        [⟨1, 2, "visualizar", 5, 1, none⟩] ∧
      (share_document [] [⟨2, true⟩] ⟨1, 1⟩ 2 ["visualizar", "bogus"] 1 none 5).2 =
        .error .invalidPermissionType :=
  ⟨rfl, rfl⟩

theorem share_go_error_decomp (users : List User) (documento : Documento)
    (target shared_by : Nat) (exp : Option Nat) (now : Nat) :
    ∀ (kinds : List String) (perms acc resPerms : List Permissao) (e : PermError),
      share_go users documento target shared_by exp now perms acc kinds =
        (resPerms, .error e) →
      ∃ pre k post gs,
        kinds = pre ++ k :: post ∧
        share_go users documento target shared_by exp now perms acc pre =
          (resPerms, .ok gs) ∧
        grant_permission resPerms users documento target k shared_by exp now =
          .error e := by
  intro kinds
  induction kinds with
  | nil =>
    intro perms acc resPerms e h
    simp [share_go] at h
  | cons k ks ih =>
    intro perms acc resPerms e h
    cases hg : grant_permission perms users documento target k shared_by exp now with
    | ok pr =>
      obtain ⟨perms', p⟩ := pr
      simp only [share_go, hg] at h
      obtain ⟨pre, k', post, gs, hks, hsh, hgr⟩ := ih perms' (p :: acc) resPerms e h
      refine ⟨k :: pre, k', post, gs, by rw [hks]; rfl, ?_, hgr⟩
      simp only [share_go, hg]
      exact hsh
    | error e' =>
      simp only [share_go, hg, Prod.mk.injEq, Except.error.injEq] at h
      obtain ⟨rfl, rfl⟩ := h
      exact ⟨[], k, ks, acc.reverse, rfl, rfl, hg⟩

/-- C4 amended: when a grant in the middle of `share_document` fails, the
grants issued before it remain persisted — the resulting table is exactly the
table produced by sharing the successful prefix alone — but the caller
receives the failing grant's error, not the list of successful grants. -/
theorem share_partial_failure_amended (perms : List Permissao) (users : List User)
    (documento : Documento) (target : Nat) (kinds : List String) (shared_by : Nat)
    (expiration_days : Option Nat) (now : Nat) (resPerms : List Permissao)
    (e : PermError)
    (h : share_document perms users documento target kinds shared_by expiration_days now =
      (resPerms, .error e)) :
    ∃ pre k post gs,
      kinds = pre ++ k :: post ∧
      share_document perms users documento target pre shared_by expiration_days now =
        (resPerms, .ok gs) ∧
      grant_permission resPerms users documento target k shared_by
        (expiration_days.map (fun d => now + d)) now = .error e := by
  unfold share_document at h ⊢
  exact share_go_error_decomp users documento target shared_by
    (expiration_days.map (fun d => now + d)) now kinds perms [] resPerms e h

/-- Witness for C4's amended statement at the counterexample input. -/
theorem share_partial_failure_amended_witness :
    ∃ pre k post gs,
      (["visualizar", "bogus"] : List String) = pre ++ k :: post ∧
      share_document [] [⟨2, true⟩] ⟨1, 1⟩ 2 pre 1 none 5 =
        ([⟨1, 2, "visualizar", 5, 1, none⟩], .ok gs) ∧
      grant_permission [⟨1, 2, "visualizar", 5, 1, none⟩] [⟨2, true⟩] ⟨1, 1⟩ 2 k 1
        none 5 = .error .invalidPermissionType :=
  share_partial_failure_amended [] [⟨2, true⟩] ⟨1, 1⟩ 2 ["visualizar", "bogus"] 1
    none 5 [⟨1, 2, "visualizar", 5, 1, none⟩] .invalidPermissionType rfl

/-! Claim C2: approve_document does not validate the comment.  The service's
own docstring declares the comment mandatory, reject_document enforces it
explicitly, and the approval form requires it, but the approve path has no
check: a direct approve call with an empty comment succeeds and records an
empty-comment history entry. -/

/-- C2 (code bug evaluation): on a pending single-stage instance,
`approve_document` with an empty comment succeeds — it appends an `aprovado`
history entry with the empty comment and finalizes the instance — while
`reject_document` with the same empty comment fails with the mandatory
comment error. -/
theorem approve_accepts_empty_comment :
    approve_document ⟨[⟨20, "W", true, [⟨"E1", [7], false⟩]⟩], [42],
        [⟨1, 42, 20, 9, 1, "pendente", none⟩], [], 2⟩ 1 7 "" 3 =
      .ok (⟨[⟨20, "W", true, [⟨"E1", [7], false⟩]⟩], [42],
        [⟨1, 42, 20, 9, 1, "aprovado", some 3⟩],
        [⟨1, 1, 7, "aprovado", "", 3⟩], 2⟩,
        ⟨1, 42, 20, 9, 1, "aprovado", some 3⟩) ∧
    reject_document ⟨[⟨20, "W", true, [⟨"E1", [7], false⟩]⟩], [42],
        [⟨1, 42, 20, 9, 1, "pendente", none⟩], [], 2⟩ 1 7 "" 3 =
      .error (.serviceError "Rejection comment is mandatory") :=
  ⟨rfl, rfl⟩

/-! Claim C5: grant uniqueness.  The permission table keeps at most one row
per (document, grantee, kind) key, and a re-grant overwrites the metadata of
the existing row. -/

/-- Invariant stated by the unique constraint
`uq_documento_usuario_permissao`: at most one row per key. -/
def atMostOnePerKey (perms : List Permissao) : Prop :=
  ∀ doc uid k, (perms.filter (permMatches doc uid k)).length ≤ 1

/-- Mutating operations of PermissionService, used to state that the
uniqueness invariant is preserved by every operation. -/
inductive POp where
  | grant (documento : Documento) (target : Nat) (k : String) (granter : Nat)
      (e : Option Nat) (now : Nat)
  | revoke (documento : Documento) (target : Nat) (k : String) (revoker : Nat)
      (now : Nat)
  | revokeAll (documento : Documento) (target : Nat) (revoker : Nat) (now : Nat)
  | cleanup (now : Nat)
  | share (documento : Documento) (target : Nat) (ks : List String) (sharer : Nat)
      (expDays : Option Nat) (now : Nat)

/-- Permission table resulting from one service call; a raised error leaves
the table unchanged. -/
def applyPOp (users : List User) (perms : List Permissao) : POp → List Permissao
  | .grant d t k g e n =>
    match grant_permission perms users d t k g e n with
    | .ok (perms', _) => perms'
    | .error _ => perms
  | .revoke d t k r n =>
    match revoke_permission perms d t k r n with
    | .ok (perms', _) => perms'
    | .error _ => perms
  | .revokeAll d t r n =>
    match revoke_all_permissions perms d t r n with
    | .ok (perms', _) => perms'
    | .error _ => perms
  | .cleanup n => (cleanup_expired_permissions perms n).1
  | .share d t ks sh ed n => (share_document perms users d t ks sh ed n).1

theorem permMatches_updatedGrant (d u : Nat) (k : String) (p : Permissao)
    (g : Nat) (e : Option Nat) (n : Nat) :
    permMatches d u k (updatedGrant p g e n) = permMatches d u k p := by
  simp [permMatches, updatedGrant]

theorem replaceFirstPerm_decomp (doc uid : Nat) (k : String) (q : Permissao)
    (l1 : List Permissao) (p0 : Permissao) (l2 : List Permissao)
    (hl1 : ∀ x ∈ l1, permMatches doc uid k x = false)
    (hp0 : permMatches doc uid k p0 = true) :
    replaceFirstPerm doc uid k q (l1 ++ p0 :: l2) = l1 ++ q :: l2 := by
  induction l1 with
  | nil => simp [replaceFirstPerm, hp0]
  | cons y ys ih =>
    rw [List.cons_append]
    simp only [replaceFirstPerm]
    rw [if_neg (by simp [hl1 y (by simp)]), ih (fun x hx => hl1 x (by simp [hx]))]
    rfl

theorem removeFirstPerm_sublist (doc uid : Nat) (k : String) :
    ∀ l : List Permissao, List.Sublist (removeFirstPerm doc uid k l) l := by
  intro l
  induction l with
  | nil => simp [removeFirstPerm]
  | cons p rest ih =>
    simp only [removeFirstPerm]
    split
    · exact List.sublist_cons_self p rest
    · exact List.Sublist.cons₂ p ih

theorem grant_permission_ok_inv {perms : List Permissao} {users : List User}
    {documento : Documento} {target : Nat} {k : String} {g : Nat} {e : Option Nat}
    {now : Nat} {perms' : List Permissao} {r : Permissao}
    (h : grant_permission perms users documento target k g e now = .ok (perms', r)) :
    (findPerm perms documento.id target k = none ∧
      r = ⟨documento.id, target, k, now, g, e⟩ ∧ perms' = perms ++ [r]) ∨
    (∃ p0, findPerm perms documento.id target k = some p0 ∧
      r = updatedGrant p0 g e now ∧
      perms' = replaceFirstPerm documento.id target k r perms) := by
  unfold grant_permission at h
  repeat' split at h
  any_goals exact Except.noConfusion h
  · rename_i existing heq
    simp only [Except.ok.injEq, Prod.mk.injEq] at h
    obtain ⟨h1, h2⟩ := h
    exact Or.inr ⟨existing, heq, h2.symm, by rw [← h1, ← h2]⟩
  · rename_i heq
    simp only [Except.ok.injEq, Prod.mk.injEq] at h
    obtain ⟨h1, h2⟩ := h
    exact Or.inl ⟨heq, h2.symm, by rw [← h1, ← h2]⟩

theorem grant_preserves_atMostOne {perms : List Permissao} {users : List User}
    {documento : Documento} {target : Nat} {k : String} {g : Nat} {e : Option Nat}
    {now : Nat} {perms' : List Permissao} {r : Permissao}
    (ham : atMostOnePerKey perms)
    (h : grant_permission perms users documento target k g e now = .ok (perms', r)) :
    atMostOnePerKey perms' := by
  rcases grant_permission_ok_inv h with ⟨hnone, hr, hperms'⟩ | ⟨p0, hsome, hr, hperms'⟩
  · intro d' u' k'
    subst hperms'
    rw [List.filter_append]
    by_cases hk : permMatches d' u' k' r = true
    · have hempty : perms.filter (permMatches d' u' k') = [] := by
        rw [List.filter_eq_nil_iff]
        intro x hx hPx
        have hkey : d' = documento.id ∧ u' = target ∧ k' = k := by
          rw [hr] at hk
          simp only [permMatches, Bool.and_eq_true, beq_iff_eq] at hk
          exact ⟨hk.1.1.symm, hk.1.2.symm, hk.2.symm⟩
        have hfn : perms.find? (permMatches documento.id target k) = none := hnone
        rw [List.find?_eq_none] at hfn
        rw [hkey.1, hkey.2.1, hkey.2.2] at hPx
        exact hfn x hx hPx
      simp [hempty, hk]
    · have hkf : permMatches d' u' k' r = false := by simpa using hk
      simp only [hkf, List.filter_cons, List.filter_nil]
      simpa using ham d' u' k'
  · intro d' u' k'
    have hsome' : perms.find? (permMatches documento.id target k) = some p0 := hsome
    obtain ⟨l1, l2, hdec, hl1⟩ := find?_decomp hsome'
    have hp0 : permMatches documento.id target k p0 = true := List.find?_some hsome'
    subst hdec
    rw [hperms', replaceFirstPerm_decomp documento.id target k r l1 p0 l2 hl1 hp0]
    have hkey : permMatches d' u' k' r = permMatches d' u' k' p0 := by
      rw [hr]
      exact permMatches_updatedGrant d' u' k' p0 g e now
    have hle := ham d' u' k'
    rw [List.filter_append] at hle ⊢
    simp only [List.filter_cons] at hle ⊢
    rw [hkey]
    cases hmp : permMatches d' u' k' p0 <;> simp only [hmp] at hle ⊢ <;> simp_all

theorem grant_filter_key {perms : List Permissao} {users : List User}
    {documento : Documento} {target : Nat} {k : String} {g : Nat} {e : Option Nat}
    {now : Nat} {perms' : List Permissao} {r : Permissao}
    (ham : atMostOnePerKey perms)
    (h : grant_permission perms users documento target k g e now = .ok (perms', r)) :
    perms'.filter (permMatches documento.id target k) = [r] ∧
      r.concedido_por = g ∧ r.data_concessao = now ∧ r.data_expiracao = e := by
  rcases grant_permission_ok_inv h with ⟨hnone, hr, hperms'⟩ | ⟨p0, hsome, hr, hperms'⟩
  · have hempty : perms.filter (permMatches documento.id target k) = [] := by
      rw [List.filter_eq_nil_iff]
      have : perms.find? (permMatches documento.id target k) = none := hnone
      rw [List.find?_eq_none] at this
      exact this
    subst hr
    subst hperms'
    rw [List.filter_append, hempty]
    exact ⟨by simp [permMatches], rfl, rfl, rfl⟩
  · have hsome' : perms.find? (permMatches documento.id target k) = some p0 := hsome
    obtain ⟨l1, l2, hdec, hl1⟩ := find?_decomp hsome'
    have hp0 : permMatches documento.id target k p0 = true := List.find?_some hsome'
    have hle := ham documento.id target k
    subst hdec
    rw [List.filter_append] at hle
    simp only [List.filter_cons, hp0, if_true] at hle
    have hl1e : l1.filter (permMatches documento.id target k) = [] := by
      rw [List.filter_eq_nil_iff]
      intro x hx hPx
      rw [hl1 x hx] at hPx
      exact absurd hPx (by simp)
    rw [hl1e] at hle
    have hl2e : l2.filter (permMatches documento.id target k) = [] := by
      rcases hcase : l2.filter (permMatches documento.id target k) with _ | ⟨y, ys⟩
      · rfl
      · rw [hcase] at hle
        simp at hle
    have hrk : permMatches documento.id target k r = true := by
      rw [hr, permMatches_updatedGrant]
      exact hp0
    rw [hperms', replaceFirstPerm_decomp documento.id target k r l1 p0 l2 hl1 hp0,
      List.filter_append, hl1e]
    simp only [List.filter_cons, hrk, if_true, hl2e]
    refine ⟨rfl, ?_, ?_, ?_⟩ <;> rw [hr] <;> rfl

theorem sublist_preserves_atMostOne {l1 l2 : List Permissao}
    (hs : List.Sublist l1 l2) (h : atMostOnePerKey l2) : atMostOnePerKey l1 :=
  fun d u k => le_trans (hs.filter (permMatches d u k)).length_le (h d u k)

theorem revoke_permission_ok_sublist {perms : List Permissao} {documento : Documento}
    {target : Nat} {k : String} {rv now : Nat} {perms' : List Permissao} {b : Bool}
    (h : revoke_permission perms documento target k rv now = .ok (perms', b)) :
    List.Sublist perms' perms := by
  unfold revoke_permission at h
  repeat' split at h
  any_goals exact Except.noConfusion h
  all_goals simp only [Except.ok.injEq, Prod.mk.injEq] at h
  · rw [← h.1]
    exact removeFirstPerm_sublist documento.id target k perms
  · rw [← h.1]

theorem revoke_all_ok_sublist {perms : List Permissao} {documento : Documento}
    {target rv : Nat} {now : Nat} {perms' : List Permissao} {n : Nat}
    (h : revoke_all_permissions perms documento target rv now = .ok (perms', n)) :
    List.Sublist perms' perms := by
  unfold revoke_all_permissions at h
  split at h
  · exact Except.noConfusion h
  · simp only [Except.ok.injEq, Prod.mk.injEq] at h
    rw [← h.1]
    exact List.filter_sublist perms

theorem share_go_preserves_atMostOne (users : List User) (documento : Documento)
    (target shared_by : Nat) (exp : Option Nat) (now : Nat) :
    ∀ (kinds : List String) (perms acc : List Permissao), atMostOnePerKey perms →
      atMostOnePerKey
        (share_go users documento target shared_by exp now perms acc kinds).1 := by
  intro kinds
  induction kinds with
  | nil =>
    intro perms acc h
    simpa [share_go] using h
  | cons k ks ih =>
    intro perms acc h
    cases hg : grant_permission perms users documento target k shared_by exp now with
    | ok pr =>
      obtain ⟨perms', p⟩ := pr
      simp only [share_go, hg]
      exact ih perms' (p :: acc) (grant_preserves_atMostOne h hg)
    | error e =>
      simpa [share_go, hg] using h

/-- C5: the at-most-one-row-per-(document, grantee, kind) invariant is
preserved by every PermissionService operation, and granting the same key
twice leaves exactly one row for that key, carrying the second call's
granter, grant date and expiration. -/
theorem grant_uniqueness (users : List User) (perms : List Permissao)
    (h : atMostOnePerKey perms) :
    (∀ op, atMostOnePerKey (applyPOp users perms op)) ∧
    (∀ (documento : Documento) (target : Nat) (k : String) (g1 g2 : Nat)
        (e1 e2 : Option Nat) (n1 n2 : Nat) (perms1 perms2 : List Permissao)
        (r1 r2 : Permissao),
      grant_permission perms users documento target k g1 e1 n1 = .ok (perms1, r1) →
      grant_permission perms1 users documento target k g2 e2 n2 = .ok (perms2, r2) →
      perms2.filter (permMatches documento.id target k) = [r2] ∧
        r2.concedido_por = g2 ∧ r2.data_concessao = n2 ∧ r2.data_expiracao = e2) := by
  constructor
  · intro op
    cases op with
    | grant d t k g e n =>
      simp only [applyPOp]
      cases hg : grant_permission perms users d t k g e n with
      | ok pr =>
        obtain ⟨perms', p⟩ := pr
        exact grant_preserves_atMostOne h hg
      | error e' => exact h
    | revoke d t k r n =>
      simp only [applyPOp]
      cases hr : revoke_permission perms d t k r n with
      | ok pr =>
        obtain ⟨perms', b⟩ := pr
        exact sublist_preserves_atMostOne (revoke_permission_ok_sublist hr) h
      | error e' => exact h
    | revokeAll d t r n =>
      simp only [applyPOp]
      cases hr : revoke_all_permissions perms d t r n with
      | ok pr =>
        obtain ⟨perms', m⟩ := pr
        exact sublist_preserves_atMostOne (revoke_all_ok_sublist hr) h
      | error e' => exact h
    | cleanup n =>
      exact sublist_preserves_atMostOne (List.filter_sublist perms) h
    | share d t ks sh ed n =>
      exact share_go_preserves_atMostOne users d t sh
        (ed.map (fun x => n + x)) n ks perms [] h
  · intro documento target k g1 g2 e1 e2 n1 n2 perms1 perms2 r1 r2 h1 h2
    exact grant_filter_key (grant_preserves_atMostOne h h1) h2

/-- Witness for C5 on a concrete table. -/
theorem grant_uniqueness_witness :
    (∀ op, atMostOnePerKey (applyPOp [⟨2, true⟩] [] op)) ∧
    (∀ (documento : Documento) (target : Nat) (k : String) (g1 g2 : Nat)
        (e1 e2 : Option Nat) (n1 n2 : Nat) (perms1 perms2 : List Permissao)
        (r1 r2 : Permissao),
      grant_permission [] [⟨2, true⟩] documento target k g1 e1 n1 = .ok (perms1, r1) →
      grant_permission perms1 [⟨2, true⟩] documento target k g2 e2 n2 = .ok (perms2, r2) →
      perms2.filter (permMatches documento.id target k) = [r2] ∧
        r2.concedido_por = g2 ∧ r2.data_concessao = n2 ∧ r2.data_expiracao = e2) :=
  grant_uniqueness [⟨2, true⟩] [] (fun d u k => by simp)

/-! Workflow-engine helper lemmas: inversion of the successful branches of
submit/approve/reject and preservation of row lookups. -/

theorem updateAprovacao_eq_of_ne (l : List AprovacaoDocumento) (r : AprovacaoDocumento)
    (h : ∀ x ∈ l, x.id ≠ r.id) : updateAprovacao l r = l := by
  induction l with
  | nil => rfl
  | cons y ys ih =>
    simp only [updateAprovacao, List.map_cons]
    rw [if_neg (by simp [h y (by simp)])]
    have := ih (fun x hx => h x (by simp [hx]))
    simp only [updateAprovacao] at this
    rw [this]

theorem updateAprovacao_decomp (l1 l2 : List AprovacaoDocumento)
    (a0 r : AprovacaoDocumento) (hl1 : ∀ x ∈ l1, x.id ≠ r.id) (ha0 : a0.id = r.id)
    (hl2 : ∀ x ∈ l2, x.id ≠ r.id) :
    updateAprovacao (l1 ++ a0 :: l2) r = l1 ++ r :: l2 := by
  induction l1 with
  | nil =>
    simp only [List.nil_append, updateAprovacao, List.map_cons]
    rw [if_pos (by simp [ha0])]
    have := updateAprovacao_eq_of_ne l2 r hl2
    simp only [updateAprovacao] at this
    rw [this]
  | cons y ys ih =>
    simp only [List.cons_append, updateAprovacao, List.map_cons] at ih ⊢
    rw [if_neg (by simp [hl1 y (by simp)])]
    rw [ih (fun x hx => hl1 x (by simp [hx]))]

theorem updateAprovacao_cons (y : AprovacaoDocumento) (ys : List AprovacaoDocumento)
    (r : AprovacaoDocumento) :
    updateAprovacao (y :: ys) r =
      (if y.id == r.id then r else y) :: updateAprovacao ys r := rfl

theorem find?_updateAprovacao_ne {l : List AprovacaoDocumento}
    {r : AprovacaoDocumento} {aid : Nat} {a : AprovacaoDocumento}
    (h : l.find? (fun x => x.id == aid) = some a) (hne : r.id ≠ aid) :
    (updateAprovacao l r).find? (fun x => x.id == aid) = some a := by
  have hrne : (r.id == aid) = false := by simp [hne]
  induction l with
  | nil => simp at h
  | cons y ys ih =>
    rw [updateAprovacao_cons]
    by_cases hy : (y.id == aid) = true
    · simp only [List.find?_cons, hy] at h
      injection h with h'
      subst h'
      have hyr : ¬((y.id == r.id) = true) := by
        have hya : y.id = aid := by simpa using hy
        simp [hya, Ne.symm hne]
      rw [if_neg hyr]
      simp only [List.find?_cons, hy]
    · have hy' : (y.id == aid) = false := by simpa using hy
      simp only [List.find?_cons, hy'] at h
      by_cases hyr : (y.id == r.id) = true
      · rw [if_pos hyr]
        simp only [List.find?_cons, hrne]
        exact ih h
      · rw [if_neg hyr]
        simp only [List.find?_cons, hy']
        exact ih h

theorem submit_ok_inv {s : WState} {d wid u : Nat} {s' : WState}
    {r : AprovacaoDocumento}
    (h : submit_for_approval s d wid u = .ok (s', r)) :
    r = ⟨s.next_id, d, wid, u, 1, "pendente", none⟩ ∧
      s'.aprovacoes = s.aprovacoes ++ [r] ∧ s'.next_id = s.next_id + 1 ∧
      s'.workflows = s.workflows ∧ s'.documentos = s.documentos ∧
      s'.historico = s.historico ∧ get_pending_approvals s d = [] := by
  unfold submit_for_approval at h
  cases hfw : findWorkflow s wid with
  | none =>
    simp only [hfw] at h
    exact Except.noConfusion h
  | some w =>
    simp only [hfw] at h
    by_cases hativo : (!w.ativo) = true
    · rw [if_pos hativo] at h
      exact Except.noConfusion h
    · rw [if_neg hativo] at h
      by_cases hdoc : (!s.documentos.contains d) = true
      · rw [if_pos hdoc] at h
        exact Except.noConfusion h
      · rw [if_neg hdoc] at h
        by_cases hpend : (!(get_pending_approvals s d).isEmpty) = true
        · rw [if_pos hpend] at h
          exact Except.noConfusion h
        · rw [if_neg hpend] at h
          simp only [Except.ok.injEq, Prod.mk.injEq] at h
          obtain ⟨h1, h2⟩ := h
          have hpe : get_pending_approvals s d = [] := by
            have h' : (get_pending_approvals s d).isEmpty = true := by
              simpa using hpend
            exact List.isEmpty_iff.mp h'
          exact ⟨h2.symm, by rw [← h1, ← h2], by rw [← h1], by rw [← h1],
            by rw [← h1], by rw [← h1], hpe⟩

theorem approve_document_ok_inv {s : WState} {aid u : Nat} {c : String} {now : Nat}
    {s' : WState} {r : AprovacaoDocumento}
    (h : approve_document s aid u c now = .ok (s', r)) :
    ∃ a0 w, findAprovacao s aid = some a0 ∧ a0.status = "pendente" ∧
      findWorkflow s a0.workflow_id = some w ∧
      is_authorized_approver w a0 u = true ∧
      s'.workflows = s.workflows ∧ s'.documentos = s.documentos ∧
      s'.next_id = s.next_id ∧
      s'.historico = s.historico ++ [⟨aid, a0.estagio_atual, u, "aprovado", c, now⟩] ∧
      ((r = a0 ∧ s'.aprovacoes = s.aprovacoes) ∨
        ((r = { a0 with estagio_atual := a0.estagio_atual + 1 } ∨
            r = { a0 with status := "aprovado", data_conclusao := some now }) ∧
          s'.aprovacoes = updateAprovacao s.aprovacoes r)) := by
  unfold approve_document at h
  cases hfa : findAprovacao s aid with
  | none =>
    simp only [hfa] at h
    exact Except.noConfusion h
  | some a0 =>
    simp only [hfa] at h
    by_cases hstat : (a0.status != "pendente") = true
    · rw [if_pos hstat] at h
      exact Except.noConfusion h
    · rw [if_neg hstat] at h
      cases hfw : findWorkflow s a0.workflow_id with
      | none =>
        simp only [hfw] at h
        exact Except.noConfusion h
      | some w =>
        simp only [hfw] at h
        by_cases hauth : (!(is_authorized_approver w a0 u)) = true
        · rw [if_pos hauth] at h
          exact Except.noConfusion h
        · rw [if_neg hauth] at h
          refine ⟨a0, w, rfl, by simpa using hstat, hfw, by simpa using hauth, ?_⟩
          by_cases hcomp : is_stage_complete w a0
              (s.historico ++ [⟨aid, a0.estagio_atual, u, "aprovado", c, now⟩])
              "aprovado" = true
          · rw [if_pos hcomp] at h
            by_cases hlt : a0.estagio_atual < w.stages.length
            · rw [if_pos hlt] at h
              simp only [Except.ok.injEq, Prod.mk.injEq] at h
              obtain ⟨h1, h2⟩ := h
              exact ⟨by rw [← h1], by rw [← h1], by rw [← h1], by rw [← h1],
                Or.inr ⟨Or.inl h2.symm, by rw [← h1, ← h2]⟩⟩
            · rw [if_neg hlt] at h
              simp only [Except.ok.injEq, Prod.mk.injEq] at h
              obtain ⟨h1, h2⟩ := h
              exact ⟨by rw [← h1], by rw [← h1], by rw [← h1], by rw [← h1],
                Or.inr ⟨Or.inr h2.symm, by rw [← h1, ← h2]⟩⟩
          · rw [if_neg hcomp] at h
            simp only [Except.ok.injEq, Prod.mk.injEq] at h
            obtain ⟨h1, h2⟩ := h
            exact ⟨by rw [← h1], by rw [← h1], by rw [← h1], by rw [← h1],
              Or.inl ⟨h2.symm, by rw [← h1]⟩⟩

theorem reject_document_ok_inv {s : WState} {aid u : Nat} {c : String} {now : Nat}
    {s' : WState} {r : AprovacaoDocumento}
    (h : reject_document s aid u c now = .ok (s', r)) :
    ∃ a0 w, isBlank c = false ∧ findAprovacao s aid = some a0 ∧
      a0.status = "pendente" ∧ findWorkflow s a0.workflow_id = some w ∧
      is_authorized_approver w a0 u = true ∧
      s'.workflows = s.workflows ∧ s'.documentos = s.documentos ∧
      s'.next_id = s.next_id ∧
      s'.historico = s.historico ++ [⟨aid, a0.estagio_atual, u, "rejeitado", c, now⟩] ∧
      r = { a0 with status := "rejeitado", data_conclusao := some now } ∧
      s'.aprovacoes = updateAprovacao s.aprovacoes r := by
  unfold reject_document at h
  by_cases hblank : isBlank c = true
  · rw [if_pos hblank] at h
    exact Except.noConfusion h
  · rw [if_neg hblank] at h
    cases hfa : findAprovacao s aid with
    | none =>
      simp only [hfa] at h
      exact Except.noConfusion h
    | some a0 =>
      simp only [hfa] at h
      by_cases hstat : (a0.status != "pendente") = true
      · rw [if_pos hstat] at h
        exact Except.noConfusion h
      · rw [if_neg hstat] at h
        cases hfw : findWorkflow s a0.workflow_id with
        | none =>
          simp only [hfw] at h
          exact Except.noConfusion h
        | some w =>
          simp only [hfw] at h
          by_cases hauth : (!(is_authorized_approver w a0 u)) = true
          · rw [if_pos hauth] at h
            exact Except.noConfusion h
          · rw [if_neg hauth] at h
            simp only [Except.ok.injEq, Prod.mk.injEq] at h
            obtain ⟨h1, h2⟩ := h
            exact ⟨a0, w, by simpa using hblank, rfl, by simpa using hstat, hfw,
              by simpa using hauth, by rw [← h1], by rw [← h1], by rw [← h1],
              by rw [← h1], h2.symm, by rw [← h1, ← h2]⟩

/-! Claim C8: terminal instances are frozen. -/

theorem applyWOp_preserves_found_terminal {s : WState} {aid : Nat}
    {a : AprovacaoDocumento} (ha : findAprovacao s aid = some a)
    (ht : a.status ≠ "pendente") (op : WOp) :
    findAprovacao (applyWOp s op) aid = some a := by
  have haid : a.id = aid := by simpa using List.find?_some ha
  cases op with
  | submit d w u =>
    simp only [applyWOp]
    cases hs : submit_for_approval s d w u with
    | ok pr =>
      obtain ⟨s', r⟩ := pr
      obtain ⟨hr, hap, _⟩ := submit_ok_inv hs
      show findAprovacao s' aid = some a
      unfold findAprovacao at ha ⊢
      rw [hap]
      exact find?_append_some _ _ ha
    | error e => exact ha
  | approve aid' u c n =>
    simp only [applyWOp]
    cases hs : approve_document s aid' u c n with
    | ok pr =>
      obtain ⟨s', r⟩ := pr
      obtain ⟨a0, w, hfa0, hp0, _, _, _, _, _, _, hbranch⟩ :=
        approve_document_ok_inv hs
      show findAprovacao s' aid = some a
      rcases hbranch with ⟨_, hsame⟩ | ⟨hform, hupd⟩
      · unfold findAprovacao at ha ⊢
        rw [hsame]
        exact ha
      · have hne : aid' ≠ aid := by
          intro hcontra
          subst hcontra
          rw [ha] at hfa0
          injection hfa0 with h'
          subst h'
          exact ht hp0
        have hrid : r.id = a0.id := by
          rcases hform with hf | hf <;> rw [hf]
        have ha0id : a0.id = aid' := by simpa using List.find?_some hfa0
        unfold findAprovacao at ha ⊢
        rw [hupd]
        exact find?_updateAprovacao_ne ha (by rw [hrid, ha0id]; exact hne)
    | error e => exact ha
  | reject aid' u c n =>
    simp only [applyWOp]
    cases hs : reject_document s aid' u c n with
    | ok pr =>
      obtain ⟨s', r⟩ := pr
      obtain ⟨a0, w, _, hfa0, hp0, _, _, _, _, _, _, hform, hupd⟩ :=
        reject_document_ok_inv hs
      show findAprovacao s' aid = some a
      have hne : aid' ≠ aid := by
        intro hcontra
        subst hcontra
        rw [ha] at hfa0
        injection hfa0 with h'
        subst h'
        exact ht hp0
      have hrid : r.id = a0.id := by rw [hform]
      have ha0id : a0.id = aid' := by simpa using List.find?_some hfa0
      unfold findAprovacao at ha ⊢
      rw [hupd]
      exact find?_updateAprovacao_ne ha (by rw [hrid, ha0id]; exact hne)
    | error e => exact ha

theorem foldl_preserves_found_terminal {aid : Nat} {a : AprovacaoDocumento}
    (ht : a.status ≠ "pendente") :
    ∀ (ops : List WOp) (s : WState), findAprovacao s aid = some a →
      findAprovacao (ops.foldl applyWOp s) aid = some a := by
  intro ops
  induction ops with
  | nil =>
    intro s ha
    simpa using ha
  | cons op rest ih =>
    intro s ha
    rw [List.foldl_cons]
    exact ih _ (applyWOp_preserves_found_terminal ha ht op)

/-- C8: once an approval instance is terminal (`aprovado` or `rejeitado`),
every later approve call fails with the not-pending error, every later reject
call fails (with the not-pending error whenever its comment is non-blank),
and no sequence of engine operations ever changes the stored row again: its
status, stage and completion date stay fixed. -/
theorem terminal_instances_frozen (s : WState) (aid : Nat) (a : AprovacaoDocumento)
    (ha : findAprovacao s aid = some a)
    (ht : a.status = "aprovado" ∨ a.status = "rejeitado") :
    (∀ u c now, approve_document s aid u c now =
      .error (.serviceError "approval is not pending")) ∧
    (∀ u c now, isBlank c = false → reject_document s aid u c now =
      .error (.serviceError "approval is not pending")) ∧
    (∀ ops : List WOp, findAprovacao (ops.foldl applyWOp s) aid = some a) := by
  have hstat : (a.status != "pendente") = true := by
    rcases ht with h | h <;> rw [h] <;> rfl
  have hne : a.status ≠ "pendente" := by
    rcases ht with h | h <;> rw [h] <;> decide
  refine ⟨fun u c now => ?_, fun u c now hc => ?_, fun ops =>
    foldl_preserves_found_terminal hne ops s ha⟩
  · unfold approve_document
    simp only [ha]
    rw [if_pos hstat]
  · unfold reject_document
    rw [if_neg (by simp [hc])]
    simp only [ha]
    rw [if_pos hstat]

/-- Witness for C8 at a concrete rejected instance. -/
theorem terminal_instances_frozen_witness :
    (∀ u c now, approve_document ⟨[⟨20, "W", true, [⟨"E1", [7], false⟩]⟩], [42],
        [⟨1, 42, 20, 9, 1, "rejeitado", some 2⟩], [], 2⟩ 1 u c now =
      .error (.serviceError "approval is not pending")) ∧
    (∀ u c now, isBlank c = false →
      reject_document ⟨[⟨20, "W", true, [⟨"E1", [7], false⟩]⟩], [42],
        [⟨1, 42, 20, 9, 1, "rejeitado", some 2⟩], [], 2⟩ 1 u c now =
      .error (.serviceError "approval is not pending")) ∧
    (∀ ops : List WOp, findAprovacao
        (ops.foldl applyWOp ⟨[⟨20, "W", true, [⟨"E1", [7], false⟩]⟩], [42],
          [⟨1, 42, 20, 9, 1, "rejeitado", some 2⟩], [], 2⟩) 1 =
      some ⟨1, 42, 20, 9, 1, "rejeitado", some 2⟩) :=
  terminal_instances_frozen ⟨[⟨20, "W", true, [⟨"E1", [7], false⟩]⟩], [42],
    [⟨1, 42, 20, 9, 1, "rejeitado", some 2⟩], [], 2⟩ 1
    ⟨1, 42, 20, 9, 1, "rejeitado", some 2⟩ rfl (Or.inr rfl)

/-! Claim C9: at most one pending instance per document. -/

/-- Storage invariant of the approval table: primary keys are distinct and
below the next key, and each document has at most one pending instance. -/
def WInv (s : WState) : Prop :=
  (s.aprovacoes.map (fun a => a.id)).Nodup ∧
    (∀ a ∈ s.aprovacoes, a.id < s.next_id) ∧
    ∀ doc, (get_pending_approvals s doc).length ≤ 1

theorem nodup_decomp_right {l1 l2 : List AprovacaoDocumento}
    {a0 : AprovacaoDocumento}
    (h : ((l1 ++ a0 :: l2).map (fun a => a.id)).Nodup) :
    ∀ x ∈ l2, x.id ≠ a0.id := by
  intro x hx
  rw [List.map_append, List.map_cons] at h
  have h2 := (List.nodup_append.mp h).2.1
  rw [List.nodup_cons] at h2
  intro he
  exact h2.1 (by rw [← he]; exact List.mem_map_of_mem _ hx)

theorem length_filter_singleton_le {α : Type} (p : α → Bool) (x : α) :
    (List.filter p [x]).length ≤ 1 := by
  simp only [List.filter_cons, List.filter_nil]
  split <;> simp

theorem update_preserves_WInv {s s' : WState} {aid' : Nat}
    {a0 r : AprovacaoDocumento}
    (hinv : WInv s) (hfa0 : findAprovacao s aid' = some a0)
    (hupd : s'.aprovacoes = updateAprovacao s.aprovacoes r)
    (hnid : s'.next_id = s.next_id) (hrid : r.id = a0.id)
    (hdoc : r.documento_id = a0.documento_id)
    (hst : r.status = a0.status ∨ r.status ≠ "pendente") :
    WInv s' := by
  obtain ⟨hN, hB, hP⟩ := hinv
  have hfa0' : s.aprovacoes.find? (fun x => x.id == aid') = some a0 := hfa0
  obtain ⟨l1, l2, hdec, hl1f⟩ := find?_decomp hfa0'
  have ha0id : a0.id = aid' := by simpa using List.find?_some hfa0'
  have hl1 : ∀ x ∈ l1, x.id ≠ r.id := by
    intro x hx
    rw [hrid, ha0id]
    simpa using hl1f x hx
  have hl2 : ∀ x ∈ l2, x.id ≠ r.id := by
    intro x hx
    rw [hrid]
    rw [hdec] at hN
    exact nodup_decomp_right hN x hx
  have hupd2 : s'.aprovacoes = l1 ++ r :: l2 := by
    rw [hupd, hdec]
    exact updateAprovacao_decomp l1 l2 a0 r hl1 hrid.symm hl2
  refine ⟨?_, ?_, ?_⟩
  · have hmap : (l1 ++ r :: l2).map (fun a => a.id) =
        (l1 ++ a0 :: l2).map (fun a => a.id) := by
      simp [hrid]
    rw [hupd2, hmap, ← hdec]
    exact hN
  · intro x hx
    rw [hupd2] at hx
    rw [hnid]
    rcases List.mem_append.mp hx with hx1 | hx2
    · exact hB x (by rw [hdec]; exact List.mem_append_left _ hx1)
    · rcases List.mem_cons.mp hx2 with rfl | hx3
      · rw [hrid]
        exact hB a0 (by rw [hdec]; exact List.mem_append_right _ (by simp))
      · exact hB x (by rw [hdec]; exact List.mem_append_right _ (by simp [hx3]))
  · intro doc
    have hle := hP doc
    unfold get_pending_approvals at hle ⊢
    rw [hupd2]
    rw [hdec] at hle
    simp only [List.filter_append, List.filter_cons] at hle ⊢
    have hcond : ((r.documento_id == doc && r.status == "pendente") = true) →
        ((a0.documento_id == doc && a0.status == "pendente") = true) := by
      rcases hst with hs1 | hs1
      · intro hcd
        rw [hdoc, hs1] at hcd
        exact hcd
      · intro hcd
        exfalso
        simp only [Bool.and_eq_true, beq_iff_eq] at hcd
        exact hs1 hcd.2
    by_cases hpr : (r.documento_id == doc && r.status == "pendente") = true
    · have hpa := hcond hpr
      rw [if_pos hpr]
      rw [if_pos hpa] at hle
      simp only [List.length_append, List.length_cons] at hle ⊢
      omega
    · rw [if_neg hpr]
      by_cases hpa : (a0.documento_id == doc && a0.status == "pendente") = true
      · rw [if_pos hpa] at hle
        simp only [List.length_append, List.length_cons] at hle ⊢
        omega
      · rw [if_neg hpa] at hle
        simp only [List.length_append] at hle ⊢
        omega

/-- C9: the single-pending-instance invariant is preserved by every engine
operation, and a submit on a document that already has a pending instance
fails with the already-pending conflict error and leaves the state (in
particular the approval table) unchanged. -/
theorem single_pending_instance (s : WState) (hinv : WInv s) :
    (∀ op, WInv (applyWOp s op)) ∧
    (∀ d wid u w, findWorkflow s wid = some w → w.ativo = true →
      s.documentos.contains d = true → get_pending_approvals s d ≠ [] →
      submit_for_approval s d wid u =
        .error (.serviceError "already has pending approval") ∧
      applyWOp s (.submit d wid u) = s) := by
  obtain ⟨hN, hB, hP⟩ := hinv
  constructor
  · intro op
    cases op with
    | submit d wid u =>
      simp only [applyWOp]
      cases hs : submit_for_approval s d wid u with
      | error e => exact ⟨hN, hB, hP⟩
      | ok pr =>
        obtain ⟨s', r⟩ := pr
        obtain ⟨hr, hap, hnid, _, _, _, hpend⟩ := submit_ok_inv hs
        show WInv s'
        refine ⟨?_, ?_, ?_⟩
        · rw [hap, List.map_append, List.nodup_append]
          refine ⟨hN, by simp, ?_⟩
          intro x hx1 hx2
          rw [List.mem_map] at hx1
          obtain ⟨y, hy, hyx⟩ := hx1
          have hb := hB y hy
          have hx2' : x = r.id := by simpa using hx2
          simp only [hr] at hx2'
          omega
        · intro x hx
          rw [hap] at hx
          rw [hnid]
          rcases List.mem_append.mp hx with hx1 | hx2
          · have := hB x hx1
            omega
          · have hx3 : x = r := by simpa using hx2
            subst hx3
            simp [hr]
        · intro doc
          unfold get_pending_approvals at hP ⊢
          rw [hap, List.filter_append]
          by_cases hdoc2 : (r.documento_id == doc && r.status == "pendente") = true
          · have hdd : d = doc := by
              simp only [hr, Bool.and_eq_true, beq_iff_eq] at hdoc2
              exact hdoc2.1
            subst hdd
            have h0 : s.aprovacoes.filter
                (fun a => a.documento_id == d && a.status == "pendente") = [] := hpend
            rw [h0]
            simp only [List.filter_cons, List.filter_nil, hdoc2, if_true]
            simp
          · have h1 : [r].filter
                (fun a => a.documento_id == doc && a.status == "pendente") = [] := by
              simp only [List.filter_cons, List.filter_nil]
              rw [if_neg hdoc2]
            rw [h1, List.append_nil]
            exact hP doc
    | approve aid' u c n =>
      simp only [applyWOp]
      cases hs : approve_document s aid' u c n with
      | error e => exact ⟨hN, hB, hP⟩
      | ok pr =>
        obtain ⟨s', r⟩ := pr
        obtain ⟨a0, w, hfa0, hp0, hfw, hauth, hwfs, hdocs, hnid, hhist, hbranch⟩ :=
          approve_document_ok_inv hs
        show WInv s'
        rcases hbranch with ⟨hreq, hsame⟩ | ⟨hform, hupd⟩
        · refine ⟨by rw [hsame]; exact hN, ?_, ?_⟩
          · intro x hx
            rw [hsame] at hx
            rw [hnid]
            exact hB x hx
          · intro doc
            unfold get_pending_approvals at hP ⊢
            rw [hsame]
            exact hP doc
        · refine update_preserves_WInv ⟨hN, hB, hP⟩ hfa0 hupd hnid ?_ ?_ ?_
          · rcases hform with hf | hf <;> rw [hf]
          · rcases hform with hf | hf <;> rw [hf]
          · rcases hform with hf | hf
            · exact Or.inl (by rw [hf])
            · refine Or.inr (by rw [hf]; show "aprovado" ≠ "pendente"; decide)
    | reject aid' u c n =>
      simp only [applyWOp]
      cases hs : reject_document s aid' u c n with
      | error e => exact ⟨hN, hB, hP⟩
      | ok pr =>
        obtain ⟨s', r⟩ := pr
        obtain ⟨a0, w, hbl, hfa0, hp0, hfw, hauth, hwfs, hdocs, hnid, hhist,
          hform, hupd⟩ := reject_document_ok_inv hs
        show WInv s'
        refine update_preserves_WInv ⟨hN, hB, hP⟩ hfa0 hupd hnid ?_ ?_ ?_
        · rw [hform]
        · rw [hform]
        · refine Or.inr (by rw [hform]; show "rejeitado" ≠ "pendente"; decide)
  · intro d wid u w hw hativo hdoc hpend
    have hie : (get_pending_approvals s d).isEmpty = false := by
      cases hcase : (get_pending_approvals s d).isEmpty
      · rfl
      · exact absurd (List.isEmpty_iff.mp hcase) hpend
    have hsub : submit_for_approval s d wid u =
        .error (.serviceError "already has pending approval") := by
      unfold submit_for_approval
      simp only [hw]
      rw [if_neg (by rw [hativo]; simp), if_neg (by rw [hdoc]; simp),
        if_pos (by rw [hie]; rfl)]
    exact ⟨hsub, by simp only [applyWOp, hsub]⟩

/-- Witness for C9 at a concrete state holding one pending instance. -/
theorem single_pending_instance_witness :
    (∀ op, WInv (applyWOp ⟨[⟨20, "W", true, [⟨"E1", [7], false⟩]⟩], [42],
      [⟨1, 42, 20, 9, 1, "pendente", none⟩], [], 2⟩ op)) ∧
    (∀ d wid u w,
      findWorkflow ⟨[⟨20, "W", true, [⟨"E1", [7], false⟩]⟩], [42],
        [⟨1, 42, 20, 9, 1, "pendente", none⟩], [], 2⟩ wid = some w →
      w.ativo = true →
      List.contains [42] d = true →
      get_pending_approvals ⟨[⟨20, "W", true, [⟨"E1", [7], false⟩]⟩], [42],
        [⟨1, 42, 20, 9, 1, "pendente", none⟩], [], 2⟩ d ≠ [] →
      submit_for_approval ⟨[⟨20, "W", true, [⟨"E1", [7], false⟩]⟩], [42],
        [⟨1, 42, 20, 9, 1, "pendente", none⟩], [], 2⟩ d wid u =
        .error (.serviceError "already has pending approval") ∧
      applyWOp ⟨[⟨20, "W", true, [⟨"E1", [7], false⟩]⟩], [42],
        [⟨1, 42, 20, 9, 1, "pendente", none⟩], [], 2⟩ (.submit d wid u) =
        ⟨[⟨20, "W", true, [⟨"E1", [7], false⟩]⟩], [42],
          [⟨1, 42, 20, 9, 1, "pendente", none⟩], [], 2⟩) :=
  single_pending_instance ⟨[⟨20, "W", true, [⟨"E1", [7], false⟩]⟩], [42],
    [⟨1, 42, 20, 9, 1, "pendente", none⟩], [], 2⟩
    ⟨by decide, by decide, fun doc => length_filter_singleton_le _ _⟩

/-! Claim C1: require-all stage completion.  The code counts distinct
approvers recorded at the stage against the size of the configured approver
list (`len(approved_by) >= len(approvers)`), not a superset test.  The two
diverge on reachable states: `update_workflow` may change a stage's approver
list while an instance is in flight, and the engine re-reads the live
definition on every action, so the history can hold a stage entry by a user
the current definition no longer configures.  On such a state a require-all
stage completes although a currently configured approver never approved.
When every recorded stage approver belongs to the configured set — as is the
case whenever the definition was not edited mid-flight — and the configured
list is duplicate-free, the count test is exactly the superset condition. -/

/-- Counterexample to C1 as stated: configured approvers [1, 2] with
require-all, and a prior stage-1 `aprovado` entry by user 7 (recorded before
a mid-flight definition edit removed 7 from the stage).  A single approval
by user 1 completes the stage and finalizes the instance, although the set
of distinct recorded approvers {7, 1} is not a superset of {1, 2}: user 2
never approved. -/
theorem require_all_completes_without_superset :
    approve_document ⟨[⟨10, "F", true, [⟨"E1", [1, 2], true⟩]⟩], [42],
        [⟨5, 42, 10, 9, 1, "pendente", none⟩],
        [⟨5, 1, 7, "aprovado", "ok", 1⟩], 6⟩ 5 1 "ok" 2 =
      .ok (⟨[⟨10, "F", true, [⟨"E1", [1, 2], true⟩]⟩], [42],
        [⟨5, 42, 10, 9, 1, "aprovado", some 2⟩],
        [⟨5, 1, 7, "aprovado", "ok", 1⟩, ⟨5, 1, 1, "aprovado", "ok", 2⟩], 6⟩,
        ⟨5, 42, 10, 9, 1, "aprovado", some 2⟩) ∧
      (2 : Nat) ∉ approvedAt
        [⟨5, 1, 7, "aprovado", "ok", 1⟩, ⟨5, 1, 1, "aprovado", "ok", 2⟩] 5 1 :=
  ⟨rfl, by decide⟩

theorem nodup_length_le_iff_subset {A B : List Nat} (hA : A.Nodup) (hB : B.Nodup)
    (hsub : ∀ x ∈ A, x ∈ B) :
    (B.length ≤ A.length ↔ ∀ x ∈ B, x ∈ A) := by
  have hAB : A.toFinset ⊆ B.toFinset := by
    intro x hx
    rw [List.mem_toFinset] at hx ⊢
    exact hsub x hx
  have hcA : A.toFinset.card = A.length := List.toFinset_card_of_nodup hA
  have hcB : B.toFinset.card = B.length := List.toFinset_card_of_nodup hB
  constructor
  · intro hle x hx
    have heq : A.toFinset = B.toFinset :=
      Finset.eq_of_subset_of_card_le hAB (by omega)
    have hxB : x ∈ B.toFinset := List.mem_toFinset.mpr hx
    rw [← heq] at hxB
    exact List.mem_toFinset.mp hxB
  · intro hsup
    have hBA : B.toFinset ⊆ A.toFinset := by
      intro x hx
      rw [List.mem_toFinset] at hx ⊢
      exact hsup x hx
    have := Finset.card_le_card hBA
    omega

theorem mem_approvedAt_iff {hist : List HistoricoAprovacao} {aid stage x : Nat} :
    x ∈ approvedAt hist aid stage ↔
      ∃ h, h ∈ hist ∧ h.aprovacao_id = aid ∧ h.estagio = stage ∧
        h.acao = "aprovado" ∧ h.aprovador_id = x := by
  unfold approvedAt get_by_approval
  rw [List.mem_dedup, List.mem_map]
  constructor
  · rintro ⟨y, hy, rfl⟩
    rw [List.mem_filter] at hy
    obtain ⟨hy1, hy2⟩ := hy
    rw [List.mem_filter] at hy1
    obtain ⟨hy0, hy3⟩ := hy1
    simp only [Bool.and_eq_true, beq_iff_eq] at hy2 hy3
    exact ⟨y, hy0, hy3, hy2.1, hy2.2, rfl⟩
  · rintro ⟨y, hy0, h1, h2, h3, rfl⟩
    refine ⟨y, ?_, rfl⟩
    rw [List.mem_filter]
    refine ⟨?_, by simp [h2, h3]⟩
    rw [List.mem_filter]
    exact ⟨hy0, by simp [h1]⟩

/-- C1: on a pending instance whose current stage has `require_all` set, a
duplicate-free approver list, and a history whose recorded stage approvers
all belong to the configured approver set, an approve call by a configured
approver succeeds, appends the `aprovado` entry, and completes the stage
(advancing it or finalizing the instance) exactly when the set of distinct
approvers recorded `aprovado` at this stage — the new entry included — is a
superset of the stage's configured approver set. -/
theorem require_all_stage_completion (s : WState) (aid approver : Nat) (c : String)
    (now : Nat) (a : AprovacaoDocumento) (w : Workflow) (st : Stage)
    (ha : findAprovacao s aid = some a)
    (hp : a.status = "pendente")
    (hw : findWorkflow s a.workflow_id = some w)
    (hst : w.stages.get? (a.estagio_atual - 1) = some st)
    (hra : st.require_all = true)
    (hnd : st.approvers.Nodup)
    (hmem : approver ∈ st.approvers)
    (hhist : ∀ x ∈ approvedAt s.historico aid a.estagio_atual, x ∈ st.approvers) :
    ∃ s' a', approve_document s aid approver c now = .ok (s', a') ∧
      s'.historico = s.historico ++
        [⟨aid, a.estagio_atual, approver, "aprovado", c, now⟩] ∧
      ((a'.estagio_atual = a.estagio_atual + 1 ∨ a'.status = "aprovado") ↔
        ∀ x ∈ st.approvers,
          x ∈ approvedAt s'.historico aid a.estagio_atual) := by
  have ha' : s.aprovacoes.find? (fun x => x.id == aid) = some a := ha
  have haid : a.id = aid := by simpa using List.find?_some ha'
  subst haid
  have hstat : ¬((a.status != "pendente") = true) := by simp [hp]
  have hauth : ¬((!(is_authorized_approver w a approver)) = true) := by
    unfold is_authorized_approver
    rw [hst]
    simp [hmem]
  have hsubA : ∀ x ∈ approvedAt
      (s.historico ++ [⟨a.id, a.estagio_atual, approver, "aprovado", c, now⟩])
      a.id a.estagio_atual, x ∈ st.approvers := by
    intro x hx
    rw [mem_approvedAt_iff] at hx
    obtain ⟨y, hy, h1, h2, h3, rfl⟩ := hx
    rcases List.mem_append.mp hy with hyh | hyE
    · exact hhist _ (mem_approvedAt_iff.mpr ⟨y, hyh, h1, h2, h3, rfl⟩)
    · have hyE' : y = ⟨a.id, a.estagio_atual, approver, "aprovado", c, now⟩ := by
        simpa using hyE
      subst hyE'
      exact hmem
  have hAnodup : (approvedAt
      (s.historico ++ [⟨a.id, a.estagio_atual, approver, "aprovado", c, now⟩])
      a.id a.estagio_atual).Nodup := List.nodup_dedup _
  have hiff := nodup_length_le_iff_subset hAnodup hnd hsubA
  have hcomp_eq : is_stage_complete w a
      (s.historico ++ [⟨a.id, a.estagio_atual, approver, "aprovado", c, now⟩])
      "aprovado" =
      decide ((approvedAt
        (s.historico ++ [⟨a.id, a.estagio_atual, approver, "aprovado", c, now⟩])
        a.id a.estagio_atual).length ≥ st.approvers.length) := by
    unfold is_stage_complete
    rw [if_neg (by decide)]
    simp only [hst]
    rw [if_neg (by rw [hra]; decide)]
  unfold approve_document
  simp only [ha]
  rw [if_neg hstat]
  simp only [hw]
  rw [if_neg hauth]
  rw [hcomp_eq]
  by_cases hlen : st.approvers.length ≤ (approvedAt
      (s.historico ++ [⟨a.id, a.estagio_atual, approver, "aprovado", c, now⟩])
      a.id a.estagio_atual).length
  · rw [if_pos (decide_eq_true hlen)]
    by_cases hlt : a.estagio_atual < w.stages.length
    · rw [if_pos hlt]
      exact ⟨_, _, rfl, rfl, iff_of_true (Or.inl rfl) (hiff.mp hlen)⟩
    · rw [if_neg hlt]
      exact ⟨_, _, rfl, rfl, iff_of_true (Or.inr rfl) (hiff.mp hlen)⟩
  · rw [if_neg (by simp only [decide_eq_true_eq]; exact hlen)]
    refine ⟨_, _, rfl, rfl, iff_of_false ?_ ?_⟩
    · rintro (h1 | h1)
      · omega
      · rw [hp] at h1
        exact absurd h1 (by decide)
    · intro hsup
      exact hlen (hiff.mpr hsup)

/-- Witness for C1: stage approvers {1, 2, 3} with require-all, approvals by
1 and 2 already recorded, then approver 3 approves. -/
theorem require_all_stage_completion_witness :
    ∃ s' a', approve_document ⟨[⟨10, "F", true, [⟨"E1", [1, 2, 3], true⟩]⟩], [42],
        [⟨5, 42, 10, 9, 1, "pendente", none⟩],
        [⟨5, 1, 1, "aprovado", "ok", 1⟩, ⟨5, 1, 2, "aprovado", "ok", 2⟩], 6⟩
        5 3 "ok" 3 = .ok (s', a') ∧
      s'.historico =
        [⟨5, 1, 1, "aprovado", "ok", 1⟩, ⟨5, 1, 2, "aprovado", "ok", 2⟩] ++
          [⟨5, 1, 3, "aprovado", "ok", 3⟩] ∧
      ((a'.estagio_atual = 1 + 1 ∨ a'.status = "aprovado") ↔
        ∀ x ∈ [1, 2, 3], x ∈ approvedAt s'.historico 5 1) :=
  require_all_stage_completion
    ⟨[⟨10, "F", true, [⟨"E1", [1, 2, 3], true⟩]⟩], [42],
      [⟨5, 42, 10, 9, 1, "pendente", none⟩],
      [⟨5, 1, 1, "aprovado", "ok", 1⟩, ⟨5, 1, 2, "aprovado", "ok", 2⟩], 6⟩
    5 3 "ok" 3 ⟨5, 42, 10, 9, 1, "pendente", none⟩
    ⟨10, "F", true, [⟨"E1", [1, 2, 3], true⟩]⟩ ⟨"E1", [1, 2, 3], true⟩
    rfl rfl rfl rfl rfl (by decide) (by decide) (by decide)

end SGDI
